import Mathlib

/-!
Shallow embedding of the ollama-management-interface server
(src/server.ts) for verification of its specification.

The embedding models:
- the API-key validation middleware (validateApiKey),
- the Zod request-body validation (messageSchema, chatRequestSchema),
- the outbound backend request construction,
- the response-header allow-list forwarding,
- the fetch-error catch handler (abort vs network failure),
- the streaming relay loop (readStream) as a trace-producing
  state machine over an abstract backend chunk stream.
-/

namespace OllamaProxy

/-! ## Byte chunks and the relay loop (server.ts lines 142-173)

A chunk is the unit of data produced by one successful
`reader.read()` on the backend response body.  We model bytes as
natural numbers below 256 is not needed for the claims, so a chunk is
simply a list of naturals. -/

abbrev Chunk := List Nat

/-- How the backend stream terminates after its chunks are exhausted:
either the final read reports done, or the read rejects (throws). -/
inductive StreamEnd where
  | done
  | fail
deriving DecidableEq, Repr

/-- Outcome of one res.write call in Node:
ok: write returned true (buffer accepted the chunk with room left);
full: write returned false (chunk accepted but the buffer is full, so
the loop awaits the drain event);
err: the write threw. -/
inductive WriteOutcome where
  | ok
  | full
  | err
deriving DecidableEq, Repr

/-- Observable events of one relay execution, in program order. -/
inductive RelayEvent where
  | read (c : Chunk)
  | readDone
  | readErr
  | write (c : Chunk) (accepted : Bool)
  | writeErr
  | drain
  | resEnd
  | send502
  | releaseLock
deriving DecidableEq, Repr

/-- How the while-loop of readStream exits:
completed: the source reported done and the loop broke normally;
threwRead: reader.read() rejected;
threwWrite: res.write threw. -/
inductive LoopExit where
  | completed
  | threwRead
  | threwWrite
deriving DecidableEq, Repr

/-- The while-true loop of readStream (server.ts lines 147-156):
read the next chunk; on done break; otherwise write it, and when the
write buffer reports full, await the drain event before the next read.
The chunk list is the sequence of chunks the backend body yields, the
StreamEnd is what the read after the last chunk reports, and ws gives
the outcome of each successive res.write (defaulting to ok when the
list is exhausted).  Returns the event trace and how the loop exited. -/
def loopRun : List Chunk → StreamEnd → List WriteOutcome → List RelayEvent × LoopExit
  | [], .done, _ => ([.readDone], .completed)
  | [], .fail, _ => ([.readErr], .threwRead)
  | c :: cs, e, ws =>
    match ws.headD .ok with
    | .ok =>
      let r := loopRun cs e ws.tail
      (.read c :: .write c true :: r.1, r.2)
    | .full =>
      let r := loopRun cs e ws.tail
      (.read c :: .write c false :: .drain :: r.1, r.2)
    | .err => ([.read c, .writeErr], .threwWrite)

/-- The try/catch/finally wrapper around the loop
(server.ts lines 146-167): on normal completion res.end(); on a
thrown read or write error, the 502 JSON body when headers were not
yet sent, then res.end(); in all cases finally reader.releaseLock(). -/
def finishStream (r : List RelayEvent × LoopExit) (headersSent : Bool) :
    List RelayEvent :=
  match r.2 with
  | .completed => r.1 ++ [.resEnd, .releaseLock]
  | _ =>
    r.1 ++ (if headersSent then ([] : List RelayEvent) else [.send502])
        ++ [.resEnd, .releaseLock]

/-- The whole readStream async function (server.ts lines 145-168). -/
def readStream (chunks : List Chunk) (e : StreamEnd) (ws : List WriteOutcome)
    (headersSent : Bool) : List RelayEvent :=
  finishStream (loopRun chunks e ws) headersSent

/-- Chunks written to the client connection, in trace order.  Both
accepted (true) and buffered-over-highwater (false) writes transfer
the chunk; accepted = false only means the loop must await drain. -/
def writtenChunks : List RelayEvent → List Chunk
  | [] => []
  | .write c _ :: t => c :: writtenChunks t
  | _ :: t => writtenChunks t

/-- Bytes delivered to the client: the written chunks, concatenated. -/
def writtenBytes (t : List RelayEvent) : List Nat :=
  (writtenChunks t).flatten

/-- Backpressure discipline of a trace: every write that was not
accepted (buffer full) is immediately followed by a drain wait, before
any further event (in particular before the next read). -/
def bpOK : List RelayEvent → Bool
  | [] => true
  | .write _ false :: t =>
    match t with
    | .drain :: t2 => bpOK t2
    | _ => false
  | _ :: t => bpOK t

/-- Outstanding-chunk discipline: scanning the trace with p chunks
read but not yet handed to a write, every read keeps the count of
pending chunks at most one. -/
def outOK : Nat → List RelayEvent → Bool
  | _, [] => true
  | p, .read _ :: t => decide (p + 1 ≤ 1) && outOK (p + 1) t
  | _, .write _ _ :: t => outOK 0 t
  | p, _ :: t => outOK p t

/-! ## API-key validation middleware (server.ts lines 13-46) -/

/-- An ApiKey record of the key store (prisma schema: id, key,
description, isActive, createdAt, lastUsedAt; only the fields the
middleware reads are modelled). -/
structure ApiKeyRec where
  id : Nat
  key : String
  isActive : Bool
deriving DecidableEq, Repr

/-- Outcome of the middleware for one request:
unauthorized: res.status(401).json(...) and next() not called;
internalErr: res.status(500).json(...) and next() not called;
proceed: next() called, the chat handler runs. -/
inductive AuthOutcome where
  | unauthorized
  | internalErr
  | proceed
deriving DecidableEq, Repr

/-- JS String.prototype.startsWith, on the character sequence of the
string (equivalent to Lean's String.startsWith, stated structurally
so that concrete instances evaluate). -/
def strStartsWith (s p : String) : Bool := p.data.isPrefixOf s.data

/-- validateApiKey (server.ts lines 13-46).  authHeader is the
Authorization header when present.  db is the key store; findUnique
on the unique key column is a first-match lookup.  lookupThrows and
updateThrows model the two awaited prisma calls rejecting, which the
surrounding try/catch turns into a 500 response. -/
def validateApiKey (authHeader : Option String) (db : List ApiKeyRec)
    (lookupThrows updateThrows : Bool) : AuthOutcome :=
  match authHeader with
  | none => .unauthorized
  | some h =>
    if ¬ (strStartsWith h "Bearer ") then .unauthorized
    else
      let apiKey := h.drop 7
      if lookupThrows then .internalErr
      else
        match db.find? (fun r => r.key == apiKey) with
        | none => .unauthorized
        | some k =>
          if ¬ k.isActive then .unauthorized
          else if updateThrows then .internalErr
          else .proceed

/-! ## JSON values and the Zod validation schemas
(server.ts lines 49-60 and 75-85) -/

/-- JSON values as delivered by the express.json body parser. -/
inductive JVal where
  | jnull
  | jbool (b : Bool)
  | jnum (n : Int)
  | jstr (s : String)
  | jarr (xs : List JVal)
  | jobj (fields : List (String × JVal))

/-- Field lookup on a JSON object; none on a non-object or when the
key is absent (JS: undefined). -/
def jget : JVal → String → Option JVal
  | .jobj fs, k => (fs.find? (fun p => p.1 == k)).map (fun p => p.2)
  | _, _ => none

/-- One Zod issue: the path of the violated field and its
human-readable message. -/
structure Issue where
  path : List String
  msg : String
deriving DecidableEq, Repr

/-- A validated chat message (roles restricted by the schema). -/
structure ChatMessage where
  role : String
  content : String
deriving DecidableEq, Repr

/-- The immutable validated Chat Request produced on success. -/
structure ChatRequest where
  messages : List ChatMessage
  stream : Bool
deriving DecidableEq, Repr

/-- The role enumeration of messageSchema. -/
def roleValues : List String := ["system", "user", "assistant"]

/-- The role field of messageSchema: z.enum of the three roles.
Issues carry the path relative to the message object.  Absent gives
the Required issue; a non-string or a string outside the enumeration
gives an invalid-value issue (Zod generates these messages). -/
def checkRole : Option JVal → List Issue
  | none => [⟨["role"], "Required"⟩]
  | some (.jstr s) =>
    if s ∈ roleValues then [] else [⟨["role"], "Invalid enum value"⟩]
  | some _ => [⟨["role"], "Invalid enum value"⟩]

/-- The content field of messageSchema:
z.string().min(1, 'Message content cannot be empty'). -/
def checkContent : Option JVal → List Issue
  | none => [⟨["content"], "Required"⟩]
  | some (.jstr s) =>
    if s.length ≥ 1 then [] else [⟨["content"], "Message content cannot be empty"⟩]
  | some _ => [⟨["content"], "Expected string"⟩]

/-- messageSchema (server.ts lines 49-52) on one array element:
issues relative to the element.  A non-object element is an
invalid-type issue at the element itself. -/
def checkMessage (j : JVal) : List Issue :=
  match j with
  | .jobj _ => checkRole (jget j "role") ++ checkContent (jget j "content")
  | _ => [⟨[], "Expected object"⟩]

/-- The value of a message element once it has no issues. -/
def messageValue (j : JVal) : ChatMessage :=
  { role := match jget j "role" with
      | some (.jstr s) => s
      | _ => ""
    content := match jget j "content" with
      | some (.jstr s) => s
      | _ => "" }

/-- Prefix every issue path with p (Zod path composition). -/
def withPath (p : List String) (is : List Issue) : List Issue :=
  is.map (fun i => ⟨p ++ i.path, i.msg⟩)

/-- Issues of all elements of the messages array, each under path
["messages", index]. -/
def elementsIssues (i : Nat) : List JVal → List Issue
  | [] => []
  | j :: rest =>
    withPath ["messages", toString i] (checkMessage j) ++ elementsIssues (i + 1) rest

/-- Size issues of the messages array:
.min(1, 'At least one message is required')
.max(100, 'Too many messages (max 100)'). -/
def sizeIssues (ms : List JVal) : List Issue :=
  (if ms.length < 1 then [⟨["messages"], "At least one message is required"⟩] else [])
    ++ (if ms.length > 100 then [⟨["messages"], "Too many messages (max 100)"⟩] else [])

/-- Issues of the messages field of chatRequestSchema. -/
def messagesIssues : Option JVal → List Issue
  | none => [⟨["messages"], "Required"⟩]
  | some (.jarr ms) => sizeIssues ms ++ elementsIssues 0 ms
  | some _ => [⟨["messages"], "Expected array"⟩]

/-- Issues of the stream field: z.boolean().optional().default(false).
Absent is fine (default applies); present non-boolean is an
invalid-type issue. -/
def streamIssues : Option JVal → List Issue
  | none => []
  | some (.jbool _) => []
  | some _ => [⟨["stream"], "Expected boolean"⟩]

/-- All issues chatRequestSchema.safeParse reports for a body.  A
non-object body is a single root invalid-type issue; on an object the
shape keys are processed in declaration order (messages, then stream),
collecting every issue rather than stopping at the first. -/
def chatIssues (body : JVal) : List Issue :=
  match body with
  | .jobj _ => messagesIssues (jget body "messages") ++ streamIssues (jget body "stream")
  | _ => [⟨[], "Expected object"⟩]

/-- The parsed value when chatIssues is empty: the validated messages
and the stream flag with its false default.  Unknown body fields are
stripped (Zod object strip mode): only messages and stream are read. -/
def chatValue (body : JVal) : ChatRequest :=
  { messages := match jget body "messages" with
      | some (.jarr ms) => ms.map messageValue
      | _ => []
    stream := match jget body "stream" with
      | some (.jbool b) => b
      | _ => false }

/-- chatRequestSchema.safeParse (server.ts line 75): success exactly
when no issue is reported. -/
def safeParseChatRequest (body : JVal) : Except (List Issue) ChatRequest :=
  match chatIssues body with
  | [] => .ok (chatValue body)
  | is => .error is

/-- One entry of the 400 response details array
(server.ts lines 80-83): field is the issue path joined with dots. -/
structure Detail where
  field : String
  message : String
deriving DecidableEq, Repr

/-- err.path.join('.') followed by the message (server.ts line 81). -/
def toDetail (i : Issue) : Detail :=
  { field := String.intercalate "." i.path, message := i.msg }

/-- The validation stage of the chat handler (server.ts lines 75-85):
some (400 response with its details array) when validation fails,
none when the handler continues to the backend call. -/
def chatValidationResponse (body : JVal) : Option (Nat × List Detail) :=
  match safeParseChatRequest body with
  | .error es => some (400, es.map toDetail)
  | .ok _ => none

/-- Spec-side validity of one message, following the claim wording:
a role in the fixed enumeration and non-empty string content. -/
def specValidMessage (j : JVal) : Prop :=
  (∃ r, jget j "role" = some (.jstr r) ∧ r ∈ roleValues)
  ∧ (∃ c, jget j "content" = some (.jstr c) ∧ c ≠ "")

/-- Spec-side validity of a whole body, following the claim wording:
messages present as an array of length in [1, 100] whose every
element is valid, and stream absent or boolean. -/
def specValidBody (body : JVal) : Prop :=
  (∃ ms, jget body "messages" = some (.jarr ms)
     ∧ 1 ≤ ms.length ∧ ms.length ≤ 100
     ∧ ∀ j ∈ ms, specValidMessage j)
  ∧ (jget body "stream" = none ∨ ∃ b, jget body "stream" = some (.jbool b))

/-! ## Outbound backend call (server.ts lines 89-116) -/

/-- The environment configuration the chat handler reads:
process.env.OLLAMA_URL and process.env.OLLAMA_MODEL, each possibly
unset. -/
structure Config where
  ollamaUrl : Option String
  ollamaModel : Option String
deriving DecidableEq, Repr

/-- JSON encoding of a validated message for the outbound body. -/
def encodeMessage (m : ChatMessage) : JVal :=
  .jobj [("role", .jstr m.role), ("content", .jstr m.content)]

/-- The outbound fetch request the handler issues. -/
structure OutboundRequest where
  url : String
  method : String
  contentType : String
  body : JVal

/-- Construction of the outbound fetch (server.ts lines 89-116):
base URL and model from the environment with their defaults, POST to
/api/chat with content-type application/json and JSON body
containing exactly model, messages, stream and keep_alive: -1. -/
def buildOutbound (cfg : Config) (cr : ChatRequest) : OutboundRequest :=
  { url := (cfg.ollamaUrl.getD "http://localhost:11434") ++ "/api/chat"
    method := "POST"
    contentType := "application/json"
    body := .jobj
      [ ("model", .jstr (cfg.ollamaModel.getD "nemotron-3-nano"))
      , ("messages", .jarr (cr.messages.map encodeMessage))
      , ("stream", .jbool cr.stream)
      , ("keep_alive", .jnum (-1)) ] }

/-- The chat handler up to the backend dispatch: validate the body;
on failure no backend call is made, on success the outbound request
is built from the validated data and the configuration. -/
def chatOutbound (cfg : Config) (body : JVal) : Option OutboundRequest :=
  match safeParseChatRequest body with
  | .error _ => none
  | .ok cr => some (buildOutbound cfg cr)

/-! ## Response-header forwarding (server.ts lines 126-139) -/

/-- The fixed allow-list of backend response headers the handler
forwards. -/
def headersToForward : List String :=
  ["content-type", "transfer-encoding", "cache-control", "content-encoding"]

/-- response.headers.get: backend headers are modelled as an
association list with lowercased names (the Headers API normalizes
names to lowercase). -/
def headerGet (bh : List (String × String)) (h : String) : Option String :=
  (bh.find? (fun p => p.1 == h)).map (fun p => p.2)

/-- The forwarding loop (server.ts lines 134-139): for each
allow-listed header, res.setHeader when the backend value is present
and truthy (an empty string is falsy in JS and is skipped). -/
def forwardHeaders (bh : List (String × String)) : List (String × String) :=
  headersToForward.filterMap (fun h =>
    match headerGet bh h with
    | some v => if v ≠ "" then some (h, v) else none
    | none => none)

/-! ## Fetch catch handler (server.ts lines 174-188) -/

/-- What the catch block sends to the client. -/
structure CatchResponse where
  status : Option Nat
  jsonBody : Bool
  ended : Bool
deriving DecidableEq, Repr

/-- The catch block of the chat handler: an AbortError (client
disconnect) with headers not yet sent gets status 499 with end() and
no body; any other fetch error with headers not yet sent gets status
502 with a JSON error body (res.json also ends the response); when
headers were already sent nothing further is written. -/
def handleFetchError (isAbort headersSent : Bool) : CatchResponse :=
  if isAbort then
    if ¬ headersSent then ⟨some 499, false, true⟩
    else ⟨none, false, false⟩
  else
    if ¬ headersSent then ⟨some 502, true, true⟩
    else ⟨none, false, false⟩

/-! ## Claim theorems -/

/-- C2: for every POST /chat request whose Authorization header is
missing, lacks the Bearer scheme prefix, or carries a token with no
matching key record or a matching record whose active flag is false,
the middleware responds 401 and never calls next(), so the chat
handler (and with it the backend fetch) is never reached.  The two
record cases presuppose that the store lookup itself succeeded
(lt = false); a lookup failure is the distinct 500 path. -/
theorem C2_unauthorized_requests_never_reach_backend
    (authHeader : Option String) (db : List ApiKeyRec) (lt ut : Bool)
    (h : authHeader = none
       ∨ (∃ s, authHeader = some s ∧ ¬ strStartsWith s "Bearer ")
       ∨ (lt = false ∧ ∃ s, authHeader = some s ∧ strStartsWith s "Bearer "
            ∧ db.find? (fun r => r.key == s.drop 7) = none)
       ∨ (lt = false ∧ ∃ s k, authHeader = some s ∧ strStartsWith s "Bearer "
            ∧ db.find? (fun r => r.key == s.drop 7) = some k ∧ k.isActive = false)) :
    validateApiKey authHeader db lt ut = AuthOutcome.unauthorized
    ∧ validateApiKey authHeader db lt ut ≠ AuthOutcome.proceed := by
  have hu : validateApiKey authHeader db lt ut = AuthOutcome.unauthorized := by
    rcases h with rfl | ⟨s, rfl, hs⟩ | ⟨rfl, s, rfl, hs, hf⟩ | ⟨rfl, s, k, rfl, hs, hf, hk⟩
    · simp [validateApiKey]
    · simp [validateApiKey, hs]
    · simp [validateApiKey, hs, hf]
    · simp [validateApiKey, hs, hf, hk]
  exact ⟨hu, by simp [hu]⟩

/-- Witness for C2 at a concrete input: the header carries a token
with no matching record in a one-record store. -/
theorem C2_witness :
    validateApiKey (some "Bearer nosuch") [⟨1, "abc123", true⟩] false false
      = AuthOutcome.unauthorized
    ∧ validateApiKey (some "Bearer nosuch") [⟨1, "abc123", true⟩] false false
      ≠ AuthOutcome.proceed :=
  C2_unauthorized_requests_never_reach_backend (some "Bearer nosuch")
    [⟨1, "abc123", true⟩] false false
    (Or.inr (Or.inr (Or.inl ⟨rfl, "Bearer nosuch", rfl, by decide, by decide⟩)))

/-- C3 counterexample: the claim says a failure of the last-used
timestamp update does not change the request outcome and the request
still proceeds; but the code awaits prisma.apiKey.update inside the
try block, so for an active matching key whose update throws, the
catch returns 500 and next() is never called. -/
theorem C3_counterexample :
    validateApiKey (some "Bearer abc123") [⟨1, "abc123", true⟩] false true
      = AuthOutcome.internalErr
    ∧ validateApiKey (some "Bearer abc123") [⟨1, "abc123", true⟩] false true
      ≠ AuthOutcome.proceed := by
  decide

/-- C3 amended: the timestamp update is awaited on the request path;
for a matching active key, a failing update yields the 500
internal-error response and the chat handler is not reached, while a
succeeding update lets the request proceed. -/
theorem C3_update_failure_fails_request
    (s : String) (db : List ApiKeyRec) (k : ApiKeyRec)
    (hs : strStartsWith s "Bearer ")
    (hf : db.find? (fun r => r.key == s.drop 7) = some k)
    (ha : k.isActive = true) :
    validateApiKey (some s) db false true = AuthOutcome.internalErr
    ∧ validateApiKey (some s) db false false = AuthOutcome.proceed := by
  constructor <;> simp [validateApiKey, hs, hf, ha]

/-- Witness for C3 amended at the concrete store of one active key. -/
theorem C3_update_failure_witness :
    validateApiKey (some "Bearer abc123") [⟨1, "abc123", true⟩] false true
      = AuthOutcome.internalErr
    ∧ validateApiKey (some "Bearer abc123") [⟨1, "abc123", true⟩] false false
      = AuthOutcome.proceed :=
  C3_update_failure_fails_request "Bearer abc123" [⟨1, "abc123", true⟩]
    ⟨1, "abc123", true⟩ (by decide) (by decide) rfl

/-- C7: when the backend fetch rejects with an AbortError (client
disconnect) and no response prefix has been sent, the handler sends
status 499 with no body; a non-abort failure instead sends the
generic 502 with a JSON error body. -/
theorem C7_abort_gets_499_not_502 :
    handleFetchError true false = ⟨some 499, false, true⟩
    ∧ handleFetchError false false = ⟨some 502, true, true⟩
    ∧ (handleFetchError true false).jsonBody = false
    ∧ handleFetchError true false ≠ handleFetchError false false := by
  decide

/-- C8: a pair (h, v) is forwarded only when h is in the fixed
allow-list and the backend response carries value v for h; and every
allow-listed header present with a truthy (non-empty) value is
forwarded.  No header outside the allow-list is ever forwarded. -/
theorem C8_header_allowlist
    (bh : List (String × String)) (h v : String) :
    ((h, v) ∈ forwardHeaders bh → h ∈ headersToForward ∧ headerGet bh h = some v)
    ∧ (h ∈ headersToForward → headerGet bh h = some v → v ≠ "" →
        (h, v) ∈ forwardHeaders bh) := by
  constructor
  · intro hm
    simp only [forwardHeaders, List.mem_filterMap] at hm
    obtain ⟨a, ha, hfa⟩ := hm
    cases hg : headerGet bh a with
    | none => rw [hg] at hfa; simp at hfa
    | some w =>
      rw [hg] at hfa
      by_cases hw : w = ""
      · simp [hw] at hfa
      · simp [hw] at hfa
        obtain ⟨rfl, rfl⟩ := hfa
        exact ⟨ha, hg⟩
  · intro hmem hget hv
    simp only [forwardHeaders, List.mem_filterMap]
    exact ⟨h, hmem, by simp [hget, hv]⟩

/-- Witness for C8: with a backend response carrying content-type and
an internal header, content-type is forwarded and proxy-internal
headers are characterized by the allow-list. -/
theorem C8_witness :
    ("content-type", "application/json")
      ∈ forwardHeaders [("content-type", "application/json"), ("x-request-id", "77")] :=
  (C8_header_allowlist [("content-type", "application/json"), ("x-request-id", "77")]
      "content-type" "application/json").2 (by decide) rfl (by decide)

/-! ## Relay lemmas -/

/-- Unfolding of the loop when the next write returns true. -/
lemma loopRun_cons_ok (c : Chunk) (cs : List Chunk) (e : StreamEnd)
    (ws : List WriteOutcome) (h : ws.headD .ok = .ok) :
    loopRun (c :: cs) e ws
      = (.read c :: .write c true :: (loopRun cs e ws.tail).1,
         (loopRun cs e ws.tail).2) := by
  rw [loopRun, h]

/-- Unfolding of the loop when the next write reports a full buffer:
the drain wait follows the write immediately. -/
lemma loopRun_cons_full (c : Chunk) (cs : List Chunk) (e : StreamEnd)
    (ws : List WriteOutcome) (h : ws.headD .ok = .full) :
    loopRun (c :: cs) e ws
      = (.read c :: .write c false :: .drain :: (loopRun cs e ws.tail).1,
         (loopRun cs e ws.tail).2) := by
  rw [loopRun, h]

/-- Unfolding of the loop when the next write throws. -/
lemma loopRun_cons_err (c : Chunk) (cs : List Chunk) (e : StreamEnd)
    (ws : List WriteOutcome) (h : ws.headD .ok = .err) :
    loopRun (c :: cs) e ws = ([.read c, .writeErr], .threwWrite) := by
  rw [loopRun, h]

/-- headD of a list without write errors is never err. -/
lemma headD_ne_err (ws : List WriteOutcome)
    (hw : ∀ o ∈ ws, o ≠ WriteOutcome.err) : ws.headD .ok ≠ .err := by
  cases ws with
  | nil => simp [List.headD]
  | cons a t => simpa [List.headD] using hw a (by simp)

/-- Write errors absent from a list are absent from its tail. -/
lemma tail_no_err (ws : List WriteOutcome)
    (hw : ∀ o ∈ ws, o ≠ WriteOutcome.err) :
    ∀ o ∈ ws.tail, o ≠ WriteOutcome.err := by
  intro o ho
  exact hw o (List.mem_of_mem_tail ho)

/-- writtenChunks distributes over trace concatenation. -/
lemma writtenChunks_append (a b : List RelayEvent) :
    writtenChunks (a ++ b) = writtenChunks a ++ writtenChunks b := by
  induction a with
  | nil => rfl
  | cons x t ih => cases x <;> simp [writtenChunks, ih]

/-- On a source that terminates with done and writes that never
throw, the loop completes normally and its trace writes exactly the
source chunks, in order. -/
lemma loopRun_done_transparent (chunks : List Chunk) (ws : List WriteOutcome)
    (hw : ∀ o ∈ ws, o ≠ WriteOutcome.err) :
    (loopRun chunks .done ws).2 = .completed
    ∧ writtenChunks (loopRun chunks .done ws).1 = chunks := by
  induction chunks generalizing ws with
  | nil => simp [loopRun, writtenChunks]
  | cons c cs ih =>
    have ht := tail_no_err ws hw
    rcases hh : ws.headD .ok with _ | _ | _
    · rw [loopRun_cons_ok c cs .done ws hh]
      exact ⟨(ih ws.tail ht).1, by simp [writtenChunks, (ih ws.tail ht).2]⟩
    · rw [loopRun_cons_full c cs .done ws hh]
      exact ⟨(ih ws.tail ht).1, by simp [writtenChunks, (ih ws.tail ht).2]⟩
    · exact absurd hh (headD_ne_err ws hw)

/-- The loop trace, followed by any backpressure-clean suffix, obeys
the backpressure discipline: every unaccepted write is followed
immediately by a drain wait. -/
lemma bpOK_loop (chunks : List Chunk) (e : StreamEnd) (ws : List WriteOutcome)
    (s : List RelayEvent) (hs : bpOK s = true) :
    bpOK ((loopRun chunks e ws).1 ++ s) = true := by
  induction chunks generalizing ws with
  | nil => cases e <;> simpa [loopRun, bpOK]
  | cons c cs ih =>
    rcases hh : ws.headD .ok with _ | _ | _
    · rw [loopRun_cons_ok c cs e ws hh]
      simpa [bpOK] using ih ws.tail
    · rw [loopRun_cons_full c cs e ws hh]
      simpa [bpOK] using ih ws.tail
    · rw [loopRun_cons_err c cs e ws hh]
      simpa [bpOK]

/-- The loop trace followed by any suffix without reads or writes
keeps at most one chunk read-but-unwritten at every point. -/
lemma outOK_loop (chunks : List Chunk) (e : StreamEnd) (ws : List WriteOutcome)
    (s : List RelayEvent) (hs : ∀ p, outOK p s = true) :
    outOK 0 ((loopRun chunks e ws).1 ++ s) = true := by
  induction chunks generalizing ws with
  | nil => cases e <;> simpa [loopRun, outOK] using hs 0
  | cons c cs ih =>
    rcases hh : ws.headD .ok with _ | _ | _
    · rw [loopRun_cons_ok c cs e ws hh]
      simpa [outOK] using ih ws.tail
    · rw [loopRun_cons_full c cs e ws hh]
      simpa [outOK] using ih ws.tail
    · rw [loopRun_cons_err c cs e ws hh]
      simpa [outOK] using hs 1

/-- The wrapper appends one of two cleanup suffixes to the loop
trace. -/
lemma finishStream_eq (r : List RelayEvent × LoopExit) (hs : Bool) :
    finishStream r hs = r.1 ++ [RelayEvent.resEnd, RelayEvent.releaseLock]
    ∨ finishStream r hs
        = r.1 ++ [RelayEvent.send502, RelayEvent.resEnd, RelayEvent.releaseLock] := by
  rcases r with ⟨t, x⟩
  cases x <;> cases hs <;> simp [finishStream]

/-- When the loop completed normally the wrapper only ends the
response and releases the lock. -/
lemma finishStream_completed (r : List RelayEvent × LoopExit) (hs : Bool)
    (h : r.2 = .completed) :
    finishStream r hs = r.1 ++ [RelayEvent.resEnd, RelayEvent.releaseLock] := by
  rcases r with ⟨t, x⟩
  cases x <;> simp_all [finishStream]

/-- The loop trace itself never ends the response or releases the
reader lock; those events are added by the try/catch/finally wrapper. -/
lemma loopRun_counts (chunks : List Chunk) (e : StreamEnd) (ws : List WriteOutcome) :
    (loopRun chunks e ws).1.count RelayEvent.resEnd = 0
    ∧ (loopRun chunks e ws).1.count RelayEvent.releaseLock = 0 := by
  induction chunks generalizing ws with
  | nil => cases e <;> simp [loopRun]
  | cons c cs ih =>
    rcases hh : ws.headD .ok with _ | _ | _
    · rw [loopRun_cons_ok c cs e ws hh]
      simpa using ih ws.tail
    · rw [loopRun_cons_full c cs e ws hh]
      simpa using ih ws.tail
    · rw [loopRun_cons_err c cs e ws hh]
      simp

/-- C1: for a successful streamed backend response (the source
reports done after its chunks and no write throws) the relay writes
each backend chunk exactly once, in order, and the bytes delivered to
the client are the concatenation of the backend chunks, regardless of
backpressure pauses and of whether headers were already sent. -/
theorem C1_streaming_transparency (chunks : List Chunk) (ws : List WriteOutcome)
    (hsent : Bool) (hw : ∀ o ∈ ws, o ≠ WriteOutcome.err) :
    writtenChunks (readStream chunks .done ws hsent) = chunks
    ∧ writtenBytes (readStream chunks .done ws hsent) = chunks.flatten := by
  have h := loopRun_done_transparent chunks ws hw
  have hr : readStream chunks .done ws hsent
      = (loopRun chunks .done ws).1 ++ [.resEnd, .releaseLock] := by
    rw [readStream, finishStream_completed _ hsent h.1]
  have hc : writtenChunks (readStream chunks .done ws hsent) = chunks := by
    rw [hr, writtenChunks_append, h.2]
    simp [writtenChunks]
  exact ⟨hc, by rw [writtenBytes, hc]⟩

/-- Witness for C1: two chunks, the first write accepted, the second
hitting a full buffer (drain pause), delivered verbatim. -/
theorem C1_witness :
    writtenChunks (readStream [[1, 2], [3]] .done [.ok, .full] false) = [[1, 2], [3]]
    ∧ writtenBytes (readStream [[1, 2], [3]] .done [.ok, .full] false) = [1, 2, 3] :=
  C1_streaming_transparency [[1, 2], [3]] [.ok, .full] false (by decide)

/-- C4: every relay trace obeys the backpressure discipline (a write
that is not accepted is immediately followed by the drain wait,
before the next read) and never holds more than one chunk read but
not yet handed to a write - for every source, every termination mode,
every write-outcome schedule and either headers state. -/
theorem C4_backpressure_invariant (chunks : List Chunk) (e : StreamEnd)
    (ws : List WriteOutcome) (hsent : Bool) :
    bpOK (readStream chunks e ws hsent) = true
    ∧ outOK 0 (readStream chunks e ws hsent) = true := by
  rw [readStream]
  rcases finishStream_eq (loopRun chunks e ws) hsent with h | h <;> rw [h]
  · exact ⟨bpOK_loop _ _ _ _ (by decide),
      outOK_loop _ _ _ _ (fun p => by simp [outOK])⟩
  · exact ⟨bpOK_loop _ _ _ _ (by decide),
      outOK_loop _ _ _ _ (fun p => by simp [outOK])⟩

/-- C5: on every exit path of the relay - source exhausted, read
error, or write error, with headers sent or not - the trace ends the
response exactly once and releases the reader lock exactly once. -/
theorem C5_cleanup_on_every_exit (chunks : List Chunk) (e : StreamEnd)
    (ws : List WriteOutcome) (hsent : Bool) :
    (readStream chunks e ws hsent).count RelayEvent.resEnd = 1
    ∧ (readStream chunks e ws hsent).count RelayEvent.releaseLock = 1 := by
  have h := loopRun_counts chunks e ws
  rw [readStream]
  rcases finishStream_eq (loopRun chunks e ws) hsent with hf | hf <;> rw [hf] <;>
    simp [List.count_append, h.1, h.2]

/-- C9: for every body that validates to a Chat Request, the outbound
backend call is a POST to /api/chat under the configured base URL
(OLLAMA_URL, default localhost:11434), sent as application/json, and
its JSON body is exactly the object with keys model (OLLAMA_MODEL,
default nemotron-3-nano), messages and stream from the validated
request, and keep_alive: -1. -/
theorem C9_outbound_request_shape (cfg : Config) (body : JVal) (cr : ChatRequest)
    (h : safeParseChatRequest body = .ok cr) :
    chatOutbound cfg body = some
      { url := (cfg.ollamaUrl.getD "http://localhost:11434") ++ "/api/chat"
        method := "POST"
        contentType := "application/json"
        body := .jobj
          [ ("model", .jstr (cfg.ollamaModel.getD "nemotron-3-nano"))
          , ("messages", .jarr (cr.messages.map encodeMessage))
          , ("stream", .jbool cr.stream)
          , ("keep_alive", .jnum (-1)) ] } := by
  simp [chatOutbound, h, buildOutbound]

/-- Witness for C9: a one-message request against an unset
environment hits the documented defaults. -/
theorem C9_witness :
    chatOutbound ⟨none, none⟩
      (.jobj [("messages", .jarr [.jobj [("role", .jstr "user"), ("content", .jstr "hi")]])])
      = some
      { url := "http://localhost:11434/api/chat"
        method := "POST"
        contentType := "application/json"
        body := .jobj
          [ ("model", .jstr "nemotron-3-nano")
          , ("messages", .jarr [.jobj [("role", .jstr "user"), ("content", .jstr "hi")]])
          , ("stream", .jbool false)
          , ("keep_alive", .jnum (-1)) ] } :=
  C9_outbound_request_shape ⟨none, none⟩
    (.jobj [("messages", .jarr [.jobj [("role", .jstr "user"), ("content", .jstr "hi")]])])
    ⟨[⟨"user", "hi"⟩], false⟩ rfl

/-- C10: the outbound call depends only on the configuration and on
the messages and stream fields of the body; two request bodies
agreeing on those two fields (for instance differing only in a
client-supplied model field) produce identical backend calls, because
the schema strips every other field. -/
theorem C10_client_cannot_influence_model (cfg : Config)
    (fs1 fs2 : List (String × JVal))
    (hm : jget (.jobj fs1) "messages" = jget (.jobj fs2) "messages")
    (hs : jget (.jobj fs1) "stream" = jget (.jobj fs2) "stream") :
    chatOutbound cfg (.jobj fs1) = chatOutbound cfg (.jobj fs2) := by
  have h1 : chatIssues (.jobj fs1) = chatIssues (.jobj fs2) := by
    simp only [chatIssues, hm, hs]
  have h2 : chatValue (.jobj fs1) = chatValue (.jobj fs2) := by
    simp only [chatValue, hm, hs]
  simp only [chatOutbound, safeParseChatRequest, h1, h2]

/-- Witness for C10: a body smuggling model and temperature fields
produces the same outbound call as the plain body. -/
theorem C10_witness :
    chatOutbound ⟨none, none⟩
      (.jobj [ ("messages", .jarr [.jobj [("role", .jstr "user"), ("content", .jstr "hi")]])
             , ("model", .jstr "other-model")
             , ("temperature", .jnum 2) ])
      = chatOutbound ⟨none, none⟩
      (.jobj [("messages", .jarr [.jobj [("role", .jstr "user"), ("content", .jstr "hi")]])]) :=
  C10_client_cannot_influence_model ⟨none, none⟩ _ _ rfl rfl

/-! ## C6: characterization of the validator -/

/-- A string is nonempty exactly when its length is at least one. -/
lemma strLength_zero_iff (s : String) : s.length = 0 ↔ s = "" := by
  cases s with
  | mk data =>
    simp only [String.length]
    constructor
    · intro h
      have hd : data = [] := List.length_eq_zero.mp h
      rw [hd]
    · intro h
      have := congrArg String.data h
      simp at this
      simp [this]

/-- The role check passes exactly on an enumerated role string. -/
lemma checkRole_nil_iff (o : Option JVal) :
    checkRole o = [] ↔ ∃ r, o = some (.jstr r) ∧ r ∈ roleValues := by
  cases o with
  | none => simp [checkRole]
  | some j =>
    cases j with
    | jstr s => by_cases hr : s ∈ roleValues <;> simp [checkRole, hr]
    | jnull => simp [checkRole]
    | jbool b => simp [checkRole]
    | jnum n => simp [checkRole]
    | jarr xs => simp [checkRole]
    | jobj fs => simp [checkRole]

/-- The content check passes exactly on a nonempty string. -/
lemma checkContent_nil_iff (o : Option JVal) :
    checkContent o = [] ↔ ∃ c, o = some (.jstr c) ∧ c ≠ "" := by
  cases o with
  | none => simp [checkContent]
  | some j =>
    cases j with
    | jstr s =>
      by_cases hc : s.length ≥ 1
      · have : s ≠ "" := fun he => by
          rw [he] at hc
          exact absurd hc (by decide)
        simp [checkContent, hc, this]
      · have h0 : s.length = 0 := Nat.eq_zero_of_not_pos hc
        have : s = "" := (strLength_zero_iff s).mp h0
        simp [checkContent, hc, this]
    | jnull => simp [checkContent]
    | jbool b => simp [checkContent]
    | jnum n => simp [checkContent]
    | jarr xs => simp [checkContent]
    | jobj fs => simp [checkContent]

/-- The per-element schema passes exactly on a spec-valid message. -/
lemma checkMessage_nil_iff (j : JVal) :
    checkMessage j = [] ↔ specValidMessage j := by
  cases j with
  | jobj fs =>
    simp only [checkMessage, List.append_eq_nil, specValidMessage,
      checkRole_nil_iff, checkContent_nil_iff]
  | jnull => simp [checkMessage, specValidMessage, jget]
  | jbool b => simp [checkMessage, specValidMessage, jget]
  | jnum n => simp [checkMessage, specValidMessage, jget]
  | jstr s => simp [checkMessage, specValidMessage, jget]
  | jarr xs => simp [checkMessage, specValidMessage, jget]

/-- The element sweep reports nothing exactly when every element
passes. -/
lemma elementsIssues_nil_iff (k : Nat) (ms : List JVal) :
    elementsIssues k ms = [] ↔ ∀ j ∈ ms, checkMessage j = [] := by
  induction ms generalizing k with
  | nil => simp [elementsIssues]
  | cons j rest ih =>
    simp [elementsIssues, withPath, ih]

/-- The size checks report nothing exactly when the length is in
[1, 100]. -/
lemma sizeIssues_nil_iff (ms : List JVal) :
    sizeIssues ms = [] ↔ 1 ≤ ms.length ∧ ms.length ≤ 100 := by
  by_cases h1 : ms.length < 1
  · simp only [sizeIssues, h1]
    simp
    omega
  · by_cases h2 : ms.length > 100
    · simp only [sizeIssues, h1, h2]
      simp
      omega
    · simp only [sizeIssues, h1, h2]
      simp
      omega

/-- The messages field passes exactly on an array of 1 to 100 valid
elements. -/
lemma messagesIssues_nil_iff (o : Option JVal) :
    messagesIssues o = []
      ↔ ∃ ms, o = some (.jarr ms) ∧ 1 ≤ ms.length ∧ ms.length ≤ 100
          ∧ ∀ j ∈ ms, specValidMessage j := by
  cases o with
  | none => simp [messagesIssues]
  | some j =>
    cases j with
    | jarr ms =>
      simp [messagesIssues, List.append_eq_nil, sizeIssues_nil_iff,
        elementsIssues_nil_iff, checkMessage_nil_iff, and_assoc]
    | jnull => simp [messagesIssues]
    | jbool b => simp [messagesIssues]
    | jnum n => simp [messagesIssues]
    | jstr s => simp [messagesIssues]
    | jobj fs => simp [messagesIssues]

/-- The stream field passes exactly when absent or boolean. -/
lemma streamIssues_nil_iff (o : Option JVal) :
    streamIssues o = [] ↔ (o = none ∨ ∃ b, o = some (.jbool b)) := by
  cases o with
  | none => simp [streamIssues]
  | some j =>
    cases j with
    | jbool b => simp [streamIssues]
    | jnull => simp [streamIssues]
    | jnum n => simp [streamIssues]
    | jstr s => simp [streamIssues]
    | jarr xs => simp [streamIssues]
    | jobj fs => simp [streamIssues]

/-- The full schema reports nothing exactly on a spec-valid body. -/
lemma chatIssues_nil_iff (body : JVal) :
    chatIssues body = [] ↔ specValidBody body := by
  cases body with
  | jobj fs =>
    simp only [chatIssues, List.append_eq_nil, specValidBody,
      messagesIssues_nil_iff, streamIssues_nil_iff]
  | jnull => simp [chatIssues, specValidBody, jget]
  | jbool b => simp [chatIssues, specValidBody, jget]
  | jnum n => simp [chatIssues, specValidBody, jget]
  | jstr s => simp [chatIssues, specValidBody, jget]
  | jarr xs => simp [chatIssues, specValidBody, jget]

/-- Every issue of element i appears in the element sweep, under the
path messages.(k+i). -/
lemma mem_elementsIssues (ms : List JVal) (k i : Nat) (h : i < ms.length)
    (iss : Issue) (hm : iss ∈ checkMessage ms[i]) :
    Issue.mk (["messages", toString (k + i)] ++ iss.path) iss.msg
      ∈ elementsIssues k ms := by
  induction ms generalizing k i with
  | nil => exact absurd h (by simp)
  | cons j rest ih =>
    cases i with
    | zero =>
      simp only [List.getElem_cons_zero] at hm
      simp only [elementsIssues, Nat.add_zero, List.mem_append]
      exact Or.inl (by
        simp only [withPath, List.mem_map]
        exact ⟨iss, hm, rfl⟩)
    | succ i' =>
      simp only [List.getElem_cons_succ] at hm
      simp only [elementsIssues, List.mem_append]
      refine Or.inr ?_
      have hlt : i' < rest.length := by simpa using h
      have := ih (k + 1) i' hlt hm
      have harith : k + 1 + i' = k + (i' + 1) := by omega
      rw [harith] at this
      exact this

/-- A body whose messages field is an array is an object, and its
issues decompose into the messages and stream parts. -/
lemma chatIssues_of_messages (body : JVal) (ms : List JVal)
    (hm : jget body "messages" = some (.jarr ms)) :
    chatIssues body
      = messagesIssues (some (.jarr ms)) ++ streamIssues (jget body "stream") := by
  cases body with
  | jobj fs => simp [chatIssues, hm]
  | jnull => simp [jget] at hm
  | jbool b => simp [jget] at hm
  | jnum n => simp [jget] at hm
  | jstr s => simp [jget] at hm
  | jarr xs => simp [jget] at hm

/-- C6: the validator succeeds exactly when messages is present as an
array of 1 to 100 elements, each with an enumerated role and
non-empty string content, and stream is absent or boolean; every
failure produces the 400 response whose details array maps each
reported issue to its dotted field path and message; and the issues
enumerate every violated field: the size violations at the messages
field and, for every element index, every violated subfield of that
element at its messages.i path - not just the first failure. -/
theorem C6_validator_characterization (body : JVal) :
    ((safeParseChatRequest body).isOk = true ↔ specValidBody body)
    ∧ (∀ es, safeParseChatRequest body = .error es →
        chatValidationResponse body = some (400, es.map toDetail))
    ∧ (∀ ms, jget body "messages" = some (.jarr ms) →
        (ms.length < 1 →
          Issue.mk ["messages"] "At least one message is required" ∈ chatIssues body)
      ∧ (100 < ms.length →
          Issue.mk ["messages"] "Too many messages (max 100)" ∈ chatIssues body)
      ∧ (∀ i, ∀ h : i < ms.length, ∀ iss ∈ checkMessage ms[i],
          Issue.mk (["messages", toString i] ++ iss.path) iss.msg
            ∈ chatIssues body)) := by
  refine ⟨?_, ?_, ?_⟩
  · rw [← chatIssues_nil_iff]
    cases h : chatIssues body with
    | nil => simp [safeParseChatRequest, h, Except.isOk, Except.toBool]
    | cons a t => simp [safeParseChatRequest, h, Except.isOk, Except.toBool]
  · intro es he
    simp [chatValidationResponse, he]
  · intro ms hm
    rw [chatIssues_of_messages body ms hm]
    refine ⟨?_, ?_, ?_⟩
    · intro hlen
      simp [messagesIssues, sizeIssues, hlen]
    · intro hlen
      have h1 : ¬ ms.length < 1 := by omega
      simp [messagesIssues, sizeIssues, h1, hlen]
    · intro i h iss hiss
      have := mem_elementsIssues ms 0 i h iss hiss
      simp only [Nat.zero_add] at this
      simp only [messagesIssues, List.mem_append]
      exact Or.inl (Or.inr (by simpa using this))

/-- Witness for C6: the empty messages array yields the 400 response
with the min-length detail at the messages field. -/
theorem C6_witness :
    Issue.mk ["messages"] "At least one message is required"
      ∈ chatIssues (.jobj [("messages", .jarr [])])
    ∧ chatValidationResponse (.jobj [("messages", .jarr [])])
      = some (400, [⟨"messages", "At least one message is required"⟩]) :=
  ⟨((C6_validator_characterization (.jobj [("messages", .jarr [])])).2.2
      [] rfl).1 (by decide),
   (C6_validator_characterization (.jobj [("messages", .jarr [])])).2.1
      [⟨["messages"], "At least one message is required"⟩] rfl⟩

end OllamaProxy
